import Mathlib

/-!
Verification development for the NoBSGoValidator repository (validator.go).

The source contains two variants of the same validator library:
* an instantiable variant (`Validator`, `New`, method receivers carrying a
  pointer to their `Validator`), and
* a process-wide singleton variant (`Init`, `ValidateStruct`, module-global
  `rules` and `typeHandlers` maps).

The shallow embedding below models:
* Go `any` operand values by the closed `Value` type, one constructor per
  `reflect.Kind` class the rules distinguish (string, signed ints, unsigned
  ints, floats, array/slice, map, and a catch-all for every other kind,
  carrying the kind's type name for `%T` formatting);
* Go errors by their message `String` (an `error` value is `Option String`,
  `none` = nil);
* Go panics by `Except String α`: `.error msg` is a panic propagating with
  message `msg`, `.ok` a normal return;
* Go maps by `GoMap K V := Option (K → Option V)`, where `none` is the nil
  map: lookups on a nil map miss, assignment into a nil map is a runtime
  panic ("assignment to entry in nil map"), exactly Go's semantics;
* `float64` values by the rational numbers they denote; the Go conversions
  `float64(rv.Int())` / `float64(rv.Uint())` are modelled by explicit
  round-to-nearest-even at 53 bits of precision (`float64OfInt`,
  `float64OfNat`), IEEE-754's (and Go's) conversion rounding.
-/

/-- One Go `any` operand, classified the way `reflect.Kind` classifies it in
the rule bodies.  `int` stands for all signed integer kinds (the rules read
them uniformly through `rv.Int()`), `uint` for all unsigned kinds
(`rv.Uint()`), `float` for `Float32/Float64` carrying the exact rational
value of the float, `list` for `Array`/`Slice` (only their length is ever
read), `mapv` for `Map` (only its length is read), and `other` for every
remaining kind, carrying the Go type name that `%T` would print. -/
inductive Value where
  | str : String → Value
  | int : Int → Value
  | uint : Nat → Value
  | float : Rat → Value
  | list : List Value → Value
  | mapv : List (Value × Value) → Value
  | other : String → Value

/-- The result of running a rule body: `.error msg` models a Go panic with
that message, `.ok none` a nil error (pass), `.ok (some e)` a returned
validation error with text `e`. -/
abbrev RuleResult := Except String (Option String)

/-- `type RuleFunc func(param []any) error` (same in both variants). -/
abbrev RuleFunc := List Value → RuleResult

/-- Go type name of a value, standing in for `%T` in the rules' error
messages (the exact spelling of unsupported-kind names is not observable by
any claim; the `other` constructor carries its own name). -/
def goTypeName : Value → String
  | .str _ => "string"
  | .int _ => "int"
  | .uint _ => "uint"
  | .float _ => "float64"
  | .list _ => "slice"
  | .mapv _ => "map"
  | .other t => t

/-- Whether a `Value` is Go's `string` kind (used by the `p.(string)` type
assertions in `notEmpty` (singleton variant) and `isEmail`). -/
def isStr : Value → Bool
  | .str _ => true
  | _ => false

/-! ### A Go map, nil included -/

/-- A Go map value: `none` is the nil map (`&Validator{}` leaves both of its
map fields nil), `some f` a made map with entry function `f`. -/
def GoMap (K V : Type) : Type := Option (K → Option V)

/-- Reading `m[k]` (with the ok flag): lookups on a nil map simply miss. -/
def GoMap.lookup {K V : Type} (m : GoMap K V) (k : K) : Option V :=
  match m with
  | none => none
  | some f => f k

/-- The made empty map (`make(map[K]V, 0)`). -/
def GoMap.empty {K V : Type} : GoMap K V := some (fun _ => none)

/-- Writing `m[k] = v`: assignment into a nil map is a Go runtime panic. -/
def GoMap.assign {K V : Type} [DecidableEq K] (m : GoMap K V) (k : K) (v : V) :
    Except String (GoMap K V) :=
  match m with
  | none => .error "assignment to entry in nil map"
  | some f => .ok (some (fun q => if q = k then some v else f q))

/-! ### The float64 widening performed by `greaterThan` / `lessThan`

Both comparison rules reduce every operand to a `float64` and compare those.
For integer operands the Go conversions `float64(rv.Int())` and
`float64(rv.Uint())` round to the nearest representable double, ties to
even — a double has a 53-bit significand, so a natural number `a > 2^53`
with top bit at position `e` is rounded to the nearest multiple of
`2^(e-52)`. -/

/-- Round `a` to the nearest multiple of `ulp`, ties to the even multiple. -/
def roundEvenDiv (a ulp : Nat) : Nat :=
  let q := a / ulp
  let r := a % ulp
  if 2 * r < ulp then q * ulp
  else if ulp < 2 * r then (q + 1) * ulp
  else if q % 2 = 0 then q * ulp else (q + 1) * ulp

/-- The distance between consecutive doubles around `a`: the least power of
two `u` with `a < u * 2^53` (fuel-driven doubling; 64 steps cover every
`uint64`). -/
def ulpFor : Nat → Nat → Nat → Nat
  | 0, _, ulp => ulp
  | fuel + 1, a, ulp => if a < ulp * 2 ^ 53 then ulp else ulpFor fuel a (2 * ulp)

/-- The exact value of `float64(a)` for a natural `a` (every Go length and
`uint64` fits this model; below `2^53` the conversion is exact). -/
def float64OfNat (a : Nat) : Nat :=
  if a ≤ 2 ^ 53 then a else roundEvenDiv a (ulpFor 64 a 1)

/-- The exact value of `float64(n)` for a signed integer `n`. -/
def float64OfInt (n : Int) : Int :=
  if 0 ≤ n then (float64OfNat n.toNat : Int) else -(float64OfNat (-n).toNat : Int)

/-! ### `notEmpty`, both installed variants -/

/-- Go `unicode.IsSpace` on the characters that actually occur in Latin-1
text (the full table agrees with this on every character the repository's
observable behaviour exercises). -/
def goIsSpace (c : Char) : Bool :=
  c = ' ' || c = '\t' || c = '\n' || c = '\x0b' || c = '\x0c' || c = '\r' ||
    c = '\x85' || c = '\xa0'

/-- `strings.TrimSpace` on the rune list of a string. -/
def goTrimSpace (l : List Char) : List Char :=
  ((l.dropWhile goIsSpace).reverse.dropWhile goIsSpace).reverse

/-- `len` of a Go string with these runes (UTF-8 byte count). -/
def utf8Len (l : List Char) : Nat :=
  l.foldl (fun n c => n + c.utf8Size) 0

/-- The length the instantiable variant's `notEmpty` computes for one
operand: element count for array/slice/map kinds, byte length of the
whitespace-trimmed string for strings, and 0 for every other kind. -/
def notEmptyLen : Value → Nat
  | .list l => l.length
  | .mapv m => m.length
  | .str s => utf8Len (goTrimSpace s.data)
  | _ => 0

/-- The loop of the instantiable variant's `notEmpty` rule body. -/
def notEmptyNewLoop : List Value → Option String
  | [] => none
  | p :: rest =>
    if notEmptyLen p = 0 then some "required rule failed" else notEmptyNewLoop rest

/-- The `notEmpty` rule registered by `New` (instantiable variant). -/
def notEmptyNewRule : RuleFunc := fun param => .ok (notEmptyNewLoop param)

/-- The loop of the singleton variant's `notEmpty` rule body: a non-string
operand fails the `p.(string)` assertion and is skipped (`continue`). -/
def notEmptyInitLoop : List Value → Option String
  | [] => none
  | p :: rest =>
    match p with
    | .str s =>
      if utf8Len (goTrimSpace s.data) = 0 then some "rule required failed"
      else notEmptyInitLoop rest
    | _ => notEmptyInitLoop rest

/-- The `notEmpty` rule registered by `Init` (singleton variant). -/
def notEmptyInitRule : RuleFunc := fun param => .ok (notEmptyInitLoop param)

/-! ### `greaterThan` and `lessThan`

The two variants register character-for-character identical `greaterThan`
bodies, and character-for-character identical `lessThan` bodies, so each is
embedded once. -/

/-- The comparer reduction of `greaterThan` (both variants): its kind switch
accepts `String, Array, Slice, Map` by length and every integer / unsigned /
float kind by (widened) value; everything else is unsupported. -/
def magnitudeWithMap : Value → Option Rat
  | .str s => some ((float64OfNat (utf8Len s.data) : Nat) : Rat)
  | .list l => some ((float64OfNat l.length : Nat) : Rat)
  | .mapv m => some ((float64OfNat m.length : Nat) : Rat)
  | .int n => some ((float64OfInt n : Int) : Rat)
  | .uint n => some ((float64OfNat n : Nat) : Rat)
  | .float q => some q
  | .other _ => none

/-- The operand reduction of `greaterThan` and `lessThan`, and the comparer
reduction of `lessThan` (both variants): as `magnitudeWithMap` but the kind
switch lists only `String, Array, Slice` — the `Map` kind is unsupported. -/
def magnitudeNoMap : Value → Option Rat
  | .str s => some ((float64OfNat (utf8Len s.data) : Nat) : Rat)
  | .list l => some ((float64OfNat l.length : Nat) : Rat)
  | .mapv _ => none
  | .int n => some ((float64OfInt n : Int) : Rat)
  | .uint n => some ((float64OfNat n : Nat) : Rat)
  | .float q => some q
  | .other _ => none

/-- `%v` of a float64 magnitude in the comparison rules' messages (the
embedding prints the rational's canonical form). -/
def fmtF (q : Rat) : String := toString q

/-- `fmt.Errorf("greaterThan: parameter at position %d (= %v) is not greater
than %v", pos, val, comparer)`. -/
def gtFailMsg (pos : Nat) (val comparer : Rat) : String :=
  "greaterThan: parameter at position " ++ toString pos ++ " (= " ++ fmtF val ++
    ") is not greater than " ++ fmtF comparer

/-- `fmt.Errorf("greaterThan: unsupported type %T at position %d", arg, pos)`. -/
def gtUnsupOperandMsg (arg : Value) (pos : Nat) : String :=
  "greaterThan: unsupported type " ++ goTypeName arg ++ " at position " ++ toString pos

/-- The `for i, arg := range params[1:]` loop of `greaterThan`; `i` is the
running 0-based loop index, failures cite position `i + 2`. -/
def gtLoop (comparer : Rat) : List Value → Nat → Option String
  | [], _ => none
  | arg :: rest, i =>
    match magnitudeNoMap arg with
    | none => some (gtUnsupOperandMsg arg (i + 2))
    | some val =>
      if val ≤ comparer then some (gtFailMsg (i + 2) val comparer)
      else gtLoop comparer rest (i + 1)

/-- The `greaterThan` rule body (registered identically by `New` and by
`Init`): panics on fewer than two parameters, returns a validation error for
an unsupported comparer, otherwise runs the comparison loop. -/
def greaterThanRule : RuleFunc
  | first :: second :: rest =>
    match magnitudeWithMap first with
    | none => .ok (some ("greaterThan: unsupported type " ++ goTypeName first ++ " for comparer"))
    | some comparer => .ok (gtLoop comparer (second :: rest) 0)
  | params =>
    .error ("greaterThan: expected at least 2 parameters, got " ++ toString params.length)

/-- `fmt.Errorf("lessThan: parameter at position %d (= %v) is not less than
%v", pos, val, comparer)`. -/
def ltFailMsg (pos : Nat) (val comparer : Rat) : String :=
  "lessThan: parameter at position " ++ toString pos ++ " (= " ++ fmtF val ++
    ") is not less than " ++ fmtF comparer

/-- `fmt.Errorf("lessThan: unsupported type %T at position %d", arg, pos)`. -/
def ltUnsupOperandMsg (arg : Value) (pos : Nat) : String :=
  "lessThan: unsupported type " ++ goTypeName arg ++ " at position " ++ toString pos

/-- The `for i, arg := range params[1:]` loop of `lessThan`. -/
def ltLoop (comparer : Rat) : List Value → Nat → Option String
  | [], _ => none
  | arg :: rest, i =>
    match magnitudeNoMap arg with
    | none => some (ltUnsupOperandMsg arg (i + 2))
    | some val =>
      if comparer ≤ val then some (ltFailMsg (i + 2) val comparer)
      else ltLoop comparer rest (i + 1)

/-- The `lessThan` rule body (registered identically by `New` and by `Init`);
its comparer switch, unlike `greaterThan`'s, does not accept the `Map` kind. -/
def lessThanRule : RuleFunc
  | first :: second :: rest =>
    match magnitudeNoMap first with
    | none => .ok (some ("lessThan: unsupported type " ++ goTypeName first ++ " for comparer"))
    | some comparer => .ok (ltLoop comparer (second :: rest) 0)
  | params =>
    .error ("lessThan: expected at least 2 parameters, got " ++ toString params.length)

/-! ### `isEmail` (instantiable variant only) -/

/-- The six booleans threaded through `isEmail`'s character scan. -/
structure EmailScanState where
  ampIsThere : Bool
  spacesThere : Bool
  textBeforeAmp : Bool
  textAfterAmp : Bool
  dotAfterAmp : Bool
  otherError : Bool

/-- All six flags false, the state before the scan. -/
def emailInitState : EmailScanState :=
  { ampIsThere := false, spacesThere := false, textBeforeAmp := false,
    textAfterAmp := false, dotAfterAmp := false, otherError := false }

/-- One iteration of `isEmail`'s `for _, r := range email` loop. -/
def emailStep (st : EmailScanState) (r : Char) : EmailScanState :=
  let st1 :=
    if r == '@' then
      { st with otherError := st.otherError || st.ampIsThere, ampIsThere := true }
    else if !st.ampIsThere then { st with textBeforeAmp := true }
    else if r == '.' then { st with dotAfterAmp := true }
    else { st with textAfterAmp := true }
  if r == ' ' || r == ',' then { st1 with spacesThere := true } else st1

/-- The whole scan, left to right over the runes. -/
def emailScan : EmailScanState → List Char → EmailScanState
  | st, [] => st
  | st, r :: rest => emailScan (emailStep st r) rest

/-- The one validation error `isEmail` ever returns. -/
def emailErrMsg : String :=
  "Email addresses must be valid, working, and must have no commas or spaces"

/-- The `isEmail` rule registered by `New`: panics on an empty parameter
list and on a non-string first parameter, otherwise scans the string and
applies the final flag test. -/
def isEmailRule : RuleFunc
  | [] => .error "No parameters passed to email rule"
  | p :: _ =>
    match p with
    | .str email =>
      let st := emailScan emailInitState email.data
      if st.spacesThere || !st.ampIsThere || !st.textAfterAmp || !st.textBeforeAmp ||
          !st.dotAfterAmp || st.otherError then
        .ok (some emailErrMsg)
      else .ok none
    | _ => .error "Parameter passed to email rule is not a string"

/-! ### The validation context and its chaining protocol

Both variants declare `ValidationContext` with an `err error` field; in the
instantiable variant the context additionally carries the pointer to its
`Validator`, which the embedding passes explicitly to the one method that
consults it (`Check`). -/

/-- The per-validation accumulator: `err = none` is the OK state, `err =
some e` the failed state with stored error text `e`. -/
structure ValidationContext where
  err : Option String

/-- `Message` (character-for-character identical in both variants): only a
failed context's error is rewritten. -/
def ValidationContext.Message (ctx : ValidationContext) (message : String) :
    ValidationContext :=
  match ctx.err with
  | some _ => { ctx with err := some message }
  | none => ctx

/-- `Must` (identical in both variants): on an OK context the predicate is
evaluated and a false result stores the error "rule failed". -/
def ValidationContext.Must (ctx : ValidationContext) (fnc : Unit → Bool) :
    ValidationContext :=
  match ctx.err with
  | some _ => ctx
  | none => if fnc () then ctx else { ctx with err := some "rule failed" }

/-- `MustErr` (singleton variant): on an OK context the function's result is
stored as the error, whatever it is. -/
def ValidationContext.MustErr (ctx : ValidationContext) (fnc : Unit → Option String) :
    ValidationContext :=
  match ctx.err with
  | some _ => ctx
  | none => { ctx with err := fnc () }

/-- A stored type handler (after `RegisterType`'s wrapping, which in the
embedding is transparent: handlers read the operand as a `Value`).  A
handler may panic (through `Check` on an unregistered rule, or a panicking
rule body), hence the `Except`. -/
abbrev HandlerFunc := Value → ValidationContext → Except String ValidationContext

/-- The instantiable variant's registry object. `&Validator{}` leaves both
fields as nil maps. -/
structure Validator where
  rules : GoMap String RuleFunc
  typeHandlers : GoMap String HandlerFunc

/-- The instantiable variant's `Check` method: a failed context returns
itself untouched; otherwise the rule is resolved in the receiver's
validator (panic when absent), run, and its result stored. -/
def checkV (v : Validator) (ctx : ValidationContext) (handlerName : String)
    (params : List Value) : Except String ValidationContext :=
  match ctx.err with
  | some _ => .ok ctx
  | none =>
    match v.rules.lookup handlerName with
    | none =>
      .error ("Rule " ++ handlerName ++ " has not been registered to specified validator")
    | some rule =>
      match rule params with
      | .error p => .error p
      | .ok e => .ok { ctx with err := e }

/-- The singleton variant's `Check` method, reading the module-global rule
map (passed explicitly here). -/
def checkS (rules : String → Option RuleFunc) (ctx : ValidationContext)
    (handlerName : String) (params : List Value) : Except String ValidationContext :=
  match ctx.err with
  | some _ => .ok ctx
  | none =>
    match rules handlerName with
    | none => .error ("Rule " ++ handlerName ++ " has not been registered")
    | some rule =>
      match rule params with
      | .error p => .error p
      | .ok e => .ok { ctx with err := e }

/-! ### Registration, both variants -/

/-- Instantiable `RegisterRule`: `v.rules[ruleName] = fnc` (a Go map
assignment, so a panic when the validator's rule map is nil). -/
def registerRuleV (v : Validator) (ruleName : String) (fnc : RuleFunc) :
    Except String Validator :=
  match v.rules.assign ruleName fnc with
  | .error e => .error e
  | .ok m => .ok { v with rules := m }

/-- Instantiable `RegisterType`: `v.typeHandlers[reflect.TypeFor[T]()] = …`
(type descriptors are modelled by their name strings). -/
def registerTypeV (v : Validator) (tyName : String) (handler : HandlerFunc) :
    Except String Validator :=
  match v.typeHandlers.assign tyName handler with
  | .error e => .error e
  | .ok m => .ok { v with typeHandlers := m }

/-- Singleton `RegisterRule`: the module-global `rules` map is created with
`make`, so it is never nil and assignment always succeeds. -/
def registerRuleS (rules : String → Option RuleFunc) (ruleName : String)
    (fnc : RuleFunc) : String → Option RuleFunc :=
  fun q => if q = ruleName then some fnc else rules q

/-- Singleton `RegisterType`, on the module-global `typeHandlers` map. -/
def registerTypeS (typeHandlers : String → Option HandlerFunc) (tyName : String)
    (handler : HandlerFunc) : String → Option HandlerFunc :=
  fun q => if q = tyName then some handler else typeHandlers q

/-- The registration sequence in `New`'s body, run against a given receiver. -/
def newRegister (v : Validator) : Except String Validator := do
  let v ← registerRuleV v "notEmpty" notEmptyNewRule
  let v ← registerRuleV v "greaterThan" greaterThanRule
  let v ← registerRuleV v "lessThan" lessThanRule
  registerRuleV v "isEmail" isEmailRule

/-- `New()`: `validator := &Validator{}` (both map fields nil), then the
four registrations. -/
def New : Except String Validator :=
  newRegister { rules := none, typeHandlers := none }

/-- The module-global `rules` map at package initialization:
`make(map[string]RuleFunc, 0)`. -/
def emptyRules : String → Option RuleFunc := fun _ => none

/-- The module-global `rules` map after `Init()` ran: `Init` registers
`notEmpty`, `greaterThan` and `lessThan`, in that order, and nothing else. -/
def initRules : String → Option RuleFunc :=
  registerRuleS
    (registerRuleS (registerRuleS emptyRules "notEmpty" notEmptyInitRule)
      "greaterThan" greaterThanRule)
    "lessThan" lessThanRule

/-- `ValidateStruct[T](s)`: resolve the value's exact runtime type (modelled
by its name string, the argument `tag`) in the global type-handler map,
panic when absent; otherwise run the handler on the value and a fresh OK
context and return the context's final error. -/
def ValidateStruct (typeHandlers : String → Option HandlerFunc) (tag : String)
    (v : Value) : Except String (Option String) :=
  match typeHandlers tag with
  | none => .error ("Type \"" ++ tag ++ "\" Hasn't been registered with RegisterType")
  | some handler =>
    match handler v { err := none } with
    | .error p => .error p
    | .ok ctx => .ok ctx.err

/-! ## Helper lemmas -/

/-- The rune test `r != '@'` guiding `takeWhile`/`dropWhile` splits of the
scanned string. -/
def notAt : Char → Bool := fun c => !(c == '@')

/-- The runes strictly after the first `'@'` (all of them when a second
`'@'` follows; the empty list when no `'@'` occurs). -/
def afterAmp (l : List Char) : List Char := (l.dropWhile notAt).tail


lemma afterAmp_cons (r : Char) (rest : List Char) :
    afterAmp (r :: rest) = (if r == '@' then rest else afterAmp rest) := by
  cases h : (r == '@') <;> simp [afterAmp, List.dropWhile, notAt, h]

lemma takeWhile_notAt_cons (r : Char) (rest : List Char) :
    (r :: rest).takeWhile notAt =
      (if r == '@' then [] else r :: rest.takeWhile notAt) := by
  cases h : (r == '@') <;> simp [List.takeWhile, notAt, h]

lemma emailStep_eq (st : EmailScanState) (r : Char) :
    emailStep st r =
      { ampIsThere := st.ampIsThere || (r == '@'),
        spacesThere := st.spacesThere || (r == ' ' || r == ','),
        textBeforeAmp := st.textBeforeAmp || (!(r == '@') && !st.ampIsThere),
        textAfterAmp := st.textAfterAmp || (!(r == '@') && (st.ampIsThere && !(r == '.'))),
        dotAfterAmp := st.dotAfterAmp || (!(r == '@') && (st.ampIsThere && (r == '.'))),
        otherError := st.otherError || ((r == '@') && st.ampIsThere) } := by
  simp only [emailStep]
  cases h1 : (r == '@') <;> cases h2 : st.ampIsThere <;> cases h3 : (r == '.') <;>
    cases h4 : (r == ' ' || r == ',') <;> simp_all

lemma emailScan_cons (st : EmailScanState) (r : Char) (rest : List Char) :
    emailScan st (r :: rest) = emailScan (emailStep st r) rest := rfl

lemma scan_spaces (l : List Char) : ∀ st : EmailScanState,
    (emailScan st l).spacesThere =
      (st.spacesThere || l.any (fun c => c == ' ' || c == ',')) := by
  induction l with
  | nil => intro st; simp [emailScan]
  | cons r rest ih =>
    intro st
    simp [emailScan_cons, ih, emailStep_eq, Bool.or_assoc]

lemma scan_amp (l : List Char) : ∀ st : EmailScanState,
    (emailScan st l).ampIsThere = (st.ampIsThere || l.any (fun c => c == '@')) := by
  induction l with
  | nil => intro st; simp [emailScan]
  | cons r rest ih =>
    intro st
    simp [emailScan_cons, ih, emailStep_eq, Bool.or_assoc]

lemma scan_other (l : List Char) : ∀ st : EmailScanState,
    (emailScan st l).otherError =
      (st.otherError ||
        (if st.ampIsThere then l.any (fun c => c == '@')
         else (afterAmp l).any (fun c => c == '@'))) := by
  induction l with
  | nil => intro st; simp [emailScan, afterAmp]
  | cons r rest ih =>
    intro st
    rw [emailScan_cons, ih, emailStep_eq]
    cases hamp : st.ampIsThere <;> cases h1 : (r == '@') <;>
      simp [afterAmp_cons, hamp, h1, Bool.or_assoc]

lemma scan_before (l : List Char) : ∀ st : EmailScanState,
    (emailScan st l).textBeforeAmp =
      (st.textBeforeAmp || (!st.ampIsThere && !(l.takeWhile notAt).isEmpty)) := by
  induction l with
  | nil => intro st; simp [emailScan]
  | cons r rest ih =>
    intro st
    rw [emailScan_cons, ih, emailStep_eq]
    cases hamp : st.ampIsThere <;> cases h1 : (r == '@') <;>
      simp [takeWhile_notAt_cons, hamp, h1, Bool.or_assoc]

lemma scan_dot (l : List Char) : ∀ st : EmailScanState,
    (emailScan st l).dotAfterAmp =
      (st.dotAfterAmp ||
        (if st.ampIsThere then l.any (fun c => !(c == '@') && (c == '.'))
         else (afterAmp l).any (fun c => !(c == '@') && (c == '.')))) := by
  induction l with
  | nil => intro st; simp [emailScan, afterAmp]
  | cons r rest ih =>
    intro st
    rw [emailScan_cons, ih, emailStep_eq]
    cases hamp : st.ampIsThere <;> cases h1 : (r == '@') <;>
      simp [afterAmp_cons, hamp, h1, Bool.or_assoc]

lemma scan_after (l : List Char) : ∀ st : EmailScanState,
    (emailScan st l).textAfterAmp =
      (st.textAfterAmp ||
        (if st.ampIsThere then l.any (fun c => !(c == '@') && !(c == '.'))
         else (afterAmp l).any (fun c => !(c == '@') && !(c == '.')))) := by
  induction l with
  | nil => intro st; simp [emailScan, afterAmp]
  | cons r rest ih =>
    intro st
    rw [emailScan_cons, ih, emailStep_eq]
    cases hamp : st.ampIsThere <;> cases h1 : (r == '@') <;>
      simp [afterAmp_cons, hamp, h1, Bool.or_assoc]

lemma count_at_eq_one_iff (l : List Char) :
    l.count '@' = 1 ↔ ('@' ∈ l ∧ '@' ∉ afterAmp l) := by
  induction l with
  | nil => simp
  | cons r rest ih =>
    by_cases h : r = '@'
    · subst h
      rw [afterAmp_cons]
      simp only [beq_self_eq_true, if_true, List.count_cons_self, List.mem_cons,
        true_or, true_and]
      rw [← List.count_eq_zero]
      omega
    · have hb : (r == '@') = false := by simp [h]
      rw [afterAmp_cons]
      simp [hb, List.count_cons, h, ih, Ne.symm h]

lemma gtLoop_none_iff (comparer : Rat) (os : List Value) (i : Nat)
    (h : ∀ o ∈ os, (magnitudeNoMap o).isSome = true) :
    gtLoop comparer os i = none ↔
      ∀ o ∈ os, ∀ m, magnitudeNoMap o = some m → comparer < m := by
  induction os generalizing i with
  | nil => simp [gtLoop]
  | cons o rest ih =>
    obtain ⟨m, hm⟩ := Option.isSome_iff_exists.mp (h o (by simp))
    by_cases hle : m ≤ comparer
    · simp only [gtLoop, hm, if_pos hle]
      constructor
      · intro habs; exact absurd habs (by simp)
      · intro hall
        exact absurd (hall o (by simp) m hm) (not_lt.mpr hle)
    · have hcm : comparer < m := not_le.mp hle
      rw [gtLoop]
      rw [hm]
      simp only [if_neg hle]
      rw [ih (i + 1) (fun p hp => h p (by simp [hp]))]
      simp only [List.forall_mem_cons, hm]
      constructor
      · intro hall
        refine ⟨?_, hall⟩
        intro m' hm'
        injection hm' with hmm
        exact hmm ▸ hcm
      · intro hall
        exact hall.2

lemma gtLoop_first_fail (comparer : Rat) (pre : List Value) (o : Value)
    (post : List Value) (m : Rat) (i : Nat)
    (hpre : ∀ p ∈ pre, ∀ mp, magnitudeNoMap p = some mp → comparer < mp)
    (hpresup : ∀ p ∈ pre, (magnitudeNoMap p).isSome = true)
    (hm : magnitudeNoMap o = some m) (hfail : m ≤ comparer) :
    gtLoop comparer (pre ++ o :: post) i =
      some (gtFailMsg (i + pre.length + 2) m comparer) := by
  induction pre generalizing i with
  | nil =>
    simp only [List.nil_append, gtLoop, hm, if_pos hfail, List.length_nil]
  | cons p rest ih =>
    obtain ⟨mp, hmp⟩ := Option.isSome_iff_exists.mp (hpresup p (by simp))
    have hlt : comparer < mp := hpre p (by simp) mp hmp
    simp only [List.cons_append, gtLoop, hmp, if_neg (not_le.mpr hlt)]
    simp only [List.append_eq]
    rw [ih (i + 1) (fun q hq => hpre q (by simp [hq]))
      (fun q hq => hpresup q (by simp [hq]))]
    have hidx : i + 1 + rest.length + 2 = i + (p :: rest).length + 2 := by
      simp only [List.length_cons]
      omega
    rw [hidx]

/-! ## The claims -/

/-- C1: a context already in the failed state (stored error non-nil) absorbs
every later `Check` (both variants), `Must` and `MustErr` call: the rule
lookup and the rule/predicate body are never reached (the result is the same
for every registry and every function argument), the stored error is
untouched, and the very same context is returned. -/
theorem claim_C1 (ctx : ValidationContext) (e : String) (h : ctx.err = some e) :
    (∀ (v : Validator) (name : String) (params : List Value),
        checkV v ctx name params = .ok ctx) ∧
    (∀ (rules : String → Option RuleFunc) (name : String) (params : List Value),
        checkS rules ctx name params = .ok ctx) ∧
    (∀ fnc : Unit → Bool, ctx.Must fnc = ctx) ∧
    (∀ fnc : Unit → Option String, ctx.MustErr fnc = ctx) := by
  refine ⟨?_, ?_, ?_, ?_⟩ <;> intros <;>
    simp [checkV, checkS, ValidationContext.Must, ValidationContext.MustErr, h]

/-- Witness for C1 at the concrete failed context `{ err := some "boom" }`:
`Check` of either variant, `Must` and `MustErr` all return it unchanged. -/
theorem claim_C1_witness :
    checkV { rules := none, typeHandlers := none } { err := some "boom" }
        "isEmail" [] = .ok { err := some "boom" } ∧
    checkS emptyRules { err := some "boom" } "isEmail" [] =
      .ok { err := some "boom" } ∧
    ValidationContext.Must { err := some "boom" } (fun _ => false) =
      { err := some "boom" } ∧
    ValidationContext.MustErr { err := some "boom" } (fun _ => some "other") =
      { err := some "boom" } :=
  ⟨(claim_C1 { err := some "boom" } "boom" rfl).1 _ "isEmail" [],
   (claim_C1 { err := some "boom" } "boom" rfl).2.1 emptyRules "isEmail" [],
   (claim_C1 { err := some "boom" } "boom" rfl).2.2.1 _,
   (claim_C1 { err := some "boom" } "boom" rfl).2.2.2 _⟩

/-- C2: `Message` (the same code in both variants) is the identity on an OK
context, and on a failed context replaces the stored error by a fresh error
whose text is exactly the given text. -/
theorem claim_C2 (ctx : ValidationContext) (text : String) :
    (ctx.err = none → ctx.Message text = ctx) ∧
    (∀ e, ctx.err = some e → ctx.Message text = { err := some text }) := by
  constructor
  · intro h; simp [ValidationContext.Message, h]
  · intro e h; simp [ValidationContext.Message, h]

/-- Witness for C2: `Message` at a concrete OK context and at a concrete
failed context. -/
theorem claim_C2_witness :
    ValidationContext.Message { err := none } "msg" = { err := none } ∧
    ValidationContext.Message { err := some "old" } "msg" = { err := some "msg" } :=
  ⟨(claim_C2 { err := none } "msg").1 rfl,
   (claim_C2 { err := some "old" } "msg").2 "old" rfl⟩

/-- C3 counterexample: the claim says `isEmail("a@b.")` returns a validation
error; on the code it passes — the scan only records whether some non-`'.'`
character occurs anywhere after the `'@'` (here `'b'`), not after the last
`'.'`. -/
theorem claim_C3_cex : isEmailRule [Value.str "a@b."] = Except.ok none := rfl

lemma sixFlags (a b c d e f : Bool) :
    (a || !b || !c || !d || !e || f) = false ↔
      (a = false ∧ b = true ∧ c = true ∧ d = true ∧ e = true ∧ f = false) := by
  cases a <;> cases b <;> cases c <;> cases d <;> cases e <;> cases f <;> simp

lemma spaces_false_iff (l : List Char) :
    (l.any (fun c => c == ' ' || c == ',') = false) ↔ ∀ c ∈ l, c ≠ ' ' ∧ c ≠ ',' := by
  simp only [List.any_eq_false, Bool.or_eq_true, beq_iff_eq, not_or]

lemma mem_at_iff (l : List Char) : (l.any (fun c => c == '@') = true) ↔ '@' ∈ l := by
  simp

lemma not_mem_at_iff (l : List Char) :
    (l.any (fun c => c == '@') = false) ↔ '@' ∉ l := by
  simp only [List.any_eq_false, beq_iff_eq]
  constructor
  · intro h hm; exact h '@' hm rfl
  · intro h c hc hceq; exact h (hceq ▸ hc)

lemma dot_true_iff (l : List Char) :
    (l.any (fun c => !(c == '@') && (c == '.')) = true) ↔ '.' ∈ l := by
  simp only [List.any_eq_true, Bool.and_eq_true, Bool.not_eq_true', beq_eq_false_iff_ne,
    beq_iff_eq]
  constructor
  · rintro ⟨c, hc, _, rfl⟩; exact hc
  · intro h; exact ⟨'.', h, by decide, rfl⟩

lemma after_true_iff (l : List Char) :
    (l.any (fun c => !(c == '@') && !(c == '.')) = true) ↔
      ∃ c ∈ l, c ≠ '@' ∧ c ≠ '.' := by
  simp only [List.any_eq_true, Bool.and_eq_true, Bool.not_eq_true', beq_eq_false_iff_ne]

lemma before_true_iff (l : List Char) :
    ((!(l.takeWhile notAt).isEmpty) = true) ↔ l.takeWhile notAt ≠ [] := by
  simp [List.isEmpty_iff]

/-- C3 (amended): `isEmail` accepts a string iff it has exactly one `'@'`,
at least one character before the `'@'`, at least one `'.'` after the `'@'`,
at least one character after the `'@'` that is neither `'.'` nor `'@'` (not
necessarily after the `'.'`), and no space or comma anywhere; consequently
`"a@b.c"` passes, `"ab.c"`, `"a@bc"` and `"a @b.c"` fail, and `"a@b."`
passes. -/
theorem claim_C3 :
    (∀ s : String,
        isEmailRule [Value.str s] = Except.ok none ↔
          ((∀ c ∈ s.data, c ≠ ' ' ∧ c ≠ ',') ∧
           s.data.count '@' = 1 ∧
           s.data.takeWhile notAt ≠ [] ∧
           '.' ∈ afterAmp s.data ∧
           (∃ c ∈ afterAmp s.data, c ≠ '@' ∧ c ≠ '.'))) ∧
    isEmailRule [Value.str "a@b.c"] = Except.ok none ∧
    isEmailRule [Value.str "ab.c"] = Except.ok (some emailErrMsg) ∧
    isEmailRule [Value.str "a@bc"] = Except.ok (some emailErrMsg) ∧
    isEmailRule [Value.str "a @b.c"] = Except.ok (some emailErrMsg) ∧
    isEmailRule [Value.str "a@b."] = Except.ok none := by
  refine ⟨?_, rfl, rfl, rfl, rfl, rfl⟩
  intro s
  have hbody : isEmailRule [Value.str s] =
      (if (emailScan emailInitState s.data).spacesThere ||
          !(emailScan emailInitState s.data).ampIsThere ||
          !(emailScan emailInitState s.data).textAfterAmp ||
          !(emailScan emailInitState s.data).textBeforeAmp ||
          !(emailScan emailInitState s.data).dotAfterAmp ||
          (emailScan emailInitState s.data).otherError then
        Except.ok (some emailErrMsg)
      else Except.ok none) := rfl
  have hsplit : ∀ b : Bool,
      ((if b then Except.ok (some emailErrMsg) else (Except.ok none : RuleResult)) =
        Except.ok none) ↔ b = false := by
    intro b; cases b <;> simp
  rw [hbody, hsplit]
  rw [scan_spaces s.data emailInitState, scan_amp s.data emailInitState,
    scan_after s.data emailInitState, scan_before s.data emailInitState,
    scan_dot s.data emailInitState, scan_other s.data emailInitState]
  simp only [emailInitState, Bool.false_or, Bool.not_false, Bool.true_and,
    Bool.false_eq_true, if_false]
  rw [sixFlags, count_at_eq_one_iff, spaces_false_iff, mem_at_iff,
    after_true_iff, before_true_iff, dot_true_iff, not_mem_at_iff]
  tauto

/-- C4 counterexample: the claim says both `notEmpty` variants fail an empty
slice and an empty map; the singleton variant's rule examines only string
operands (`p.(string)` with `continue` on failure), so the empty slice and
the empty map pass there. -/
theorem claim_C4_cex :
    notEmptyInitRule [Value.list []] = Except.ok none ∧
    notEmptyInitRule [Value.mapv []] = Except.ok none := ⟨rfl, rfl⟩

/-- C4 (amended): both variants fail `""` and `"   "` and pass `"a"`; the
instantiable (`New`) variant fails the empty slice and the empty map and
passes a one-element slice; the singleton (`Init`) variant skips every
non-string operand, so the empty slice/map (and any list of non-string
operands) pass there; on true other kinds the variants diverge exactly as
claimed — `New`'s fails them (e.g. any int operand), `Init`'s skips them. -/
theorem claim_C4 :
    notEmptyNewRule [Value.str ""] = Except.ok (some "required rule failed") ∧
    notEmptyNewRule [Value.str "   "] = Except.ok (some "required rule failed") ∧
    notEmptyNewRule [Value.list []] = Except.ok (some "required rule failed") ∧
    notEmptyNewRule [Value.mapv []] = Except.ok (some "required rule failed") ∧
    notEmptyNewRule [Value.str "a"] = Except.ok none ∧
    notEmptyNewRule [Value.list [Value.int 1]] = Except.ok none ∧
    notEmptyInitRule [Value.str ""] = Except.ok (some "rule required failed") ∧
    notEmptyInitRule [Value.str "   "] = Except.ok (some "rule required failed") ∧
    notEmptyInitRule [Value.str "a"] = Except.ok none ∧
    notEmptyInitRule [Value.list [Value.int 1]] = Except.ok none ∧
    (∀ params : List Value, (∀ p ∈ params, isStr p = false) →
        notEmptyInitRule params = Except.ok none) ∧
    (∀ n : Int,
        notEmptyNewRule [Value.int n] = Except.ok (some "required rule failed") ∧
        notEmptyInitRule [Value.int n] = Except.ok none) := by
  refine ⟨rfl, rfl, rfl, rfl, rfl, rfl, rfl, rfl, rfl, rfl, ?_, ?_⟩
  · intro params h
    simp only [notEmptyInitRule, Except.ok.injEq]
    induction params with
    | nil => rfl
    | cons p rest ih =>
      have hp := h p (by simp)
      have hrest := ih (fun q hq => h q (by simp [hq]))
      cases p <;> simp_all [notEmptyInitLoop, isStr]
  · intro n
    exact ⟨rfl, rfl⟩

/-- Witness for C4's general clause: a list of two non-string operands
passes the singleton variant's `notEmpty`. -/
theorem claim_C4_witness :
    notEmptyInitRule [Value.other "bool", Value.int 0] = Except.ok none :=
  claim_C4.2.2.2.2.2.2.2.2.2.2.1 [Value.other "bool", Value.int 0] (by decide)

/-- C5: `greaterThan` on a supported comparer and supported compared
operands passes iff every compared operand's reduced magnitude (string /
slice length, numeric value widened to float64) strictly exceeds the
comparer's; the first operand failing the comparison produces the error
citing its 1-based position (`pre.length + 2`, position 2 being the first
compared operand) and both magnitudes; and the claim's concrete vectors:
`greaterThan(5,6)` passes, `greaterThan(5,5)` and `greaterThan(5,4)` fail,
`greaterThan("ab","abc")` passes by length. -/
theorem claim_C5 :
    (∀ (c : Value) (os : List Value) (mc : Rat),
        magnitudeWithMap c = some mc → os ≠ [] →
        (∀ o ∈ os, (magnitudeNoMap o).isSome = true) →
        (greaterThanRule (c :: os) = Except.ok none ↔
          ∀ o ∈ os, ∀ m, magnitudeNoMap o = some m → mc < m)) ∧
    (∀ (c : Value) (mc : Rat) (pre : List Value) (o : Value) (post : List Value)
        (m : Rat),
        magnitudeWithMap c = some mc →
        (∀ p ∈ pre, ∀ mp, magnitudeNoMap p = some mp → mc < mp) →
        (∀ p ∈ pre, (magnitudeNoMap p).isSome = true) →
        magnitudeNoMap o = some m → m ≤ mc →
        greaterThanRule (c :: (pre ++ o :: post)) =
          Except.ok (some (gtFailMsg (pre.length + 2) m mc))) ∧
    greaterThanRule [Value.int 5, Value.int 6] = Except.ok none ∧
    greaterThanRule [Value.int 5, Value.int 5] =
      Except.ok (some (gtFailMsg 2 5 5)) ∧
    greaterThanRule [Value.int 5, Value.int 4] =
      Except.ok (some (gtFailMsg 2 4 5)) ∧
    greaterThanRule [Value.str "ab", Value.str "abc"] = Except.ok none := by
  refine ⟨?_, ?_, rfl, rfl, rfl, rfl⟩
  · intro c os mc hc hne hsup
    cases os with
    | nil => exact absurd rfl hne
    | cons o rest =>
      have hred : greaterThanRule (c :: o :: rest) =
          Except.ok (gtLoop mc (o :: rest) 0) := by
        simp [greaterThanRule, hc]
      rw [hred]
      constructor
      · intro h
        have : gtLoop mc (o :: rest) 0 = none := by
          injection h
        exact (gtLoop_none_iff mc (o :: rest) 0 hsup).mp this
      · intro h
        rw [(gtLoop_none_iff mc (o :: rest) 0 hsup).mpr h]
  · intro c mc pre o post m hc hpre hpresup hm hfail
    have hex : ∃ p1 rest1, pre ++ o :: post = p1 :: rest1 := by
      cases pre with
      | nil => exact ⟨o, post, rfl⟩
      | cons a l => exact ⟨a, l ++ o :: post, by simp⟩
    obtain ⟨p1, rest1, hpp⟩ := hex
    have hred : greaterThanRule (c :: (pre ++ o :: post)) =
        Except.ok (gtLoop mc (pre ++ o :: post) 0) := by
      rw [hpp]
      simp [greaterThanRule, hc]
    rw [hred, gtLoop_first_fail mc pre o post m 0 hpre hpresup hm hfail]
    norm_num

/-- Witness for C5: the pass-iff clause applied at the concrete call
`greaterThan(5, 6)`, all hypotheses discharged there. -/
theorem claim_C5_witness :
    greaterThanRule [Value.int 5, Value.int 6] = Except.ok none :=
  (claim_C5.1 (Value.int 5) [Value.int 6] 5 (by decide) (by simp)
      (by decide)).mpr (by
    intro o ho m hm
    simp only [List.mem_singleton] at ho
    subst ho
    have : magnitudeNoMap (Value.int 6) = some 6 := by decide
    rw [this] at hm
    injection hm with h
    rw [← h]
    decide)

/-- C6: all programming-contract violations surface as panics (`.error` in
the embedding), never as a stored validation result: `Check` on an
unregistered rule name (both variants), `ValidateStruct` on an unregistered
type, `greaterThan`/`lessThan` with fewer than 2 arguments, `isEmail` with
no argument or a non-string first argument; a panic raised inside a rule
run by `Check` propagates without any context being produced, so no stored
error is ever set on these paths. -/
theorem claim_C6 :
    (∀ (v : Validator) (ctx : ValidationContext) (name : String)
        (params : List Value), ctx.err = none → v.rules.lookup name = none →
        checkV v ctx name params =
          Except.error
            ("Rule " ++ name ++ " has not been registered to specified validator")) ∧
    (∀ (rules : String → Option RuleFunc) (ctx : ValidationContext)
        (name : String) (params : List Value), ctx.err = none → rules name = none →
        checkS rules ctx name params =
          Except.error ("Rule " ++ name ++ " has not been registered")) ∧
    (∀ (th : String → Option HandlerFunc) (tag : String) (v : Value),
        th tag = none →
        ValidateStruct th tag v =
          Except.error
            ("Type \"" ++ tag ++ "\" Hasn't been registered with RegisterType")) ∧
    (∀ (rules : String → Option RuleFunc) (ctx : ValidationContext)
        (name : String) (params : List Value) (f : RuleFunc) (p : String),
        ctx.err = none → rules name = some f → f params = Except.error p →
        checkS rules ctx name params = Except.error p) ∧
    (∀ p : Value, greaterThanRule [p] =
        Except.error "greaterThan: expected at least 2 parameters, got 1") ∧
    greaterThanRule [] =
      Except.error "greaterThan: expected at least 2 parameters, got 0" ∧
    (∀ p : Value, lessThanRule [p] =
        Except.error "lessThan: expected at least 2 parameters, got 1") ∧
    lessThanRule [] =
      Except.error "lessThan: expected at least 2 parameters, got 0" ∧
    isEmailRule [] = Except.error "No parameters passed to email rule" ∧
    (∀ (p : Value) (rest : List Value), isStr p = false →
        isEmailRule (p :: rest) =
          Except.error "Parameter passed to email rule is not a string") := by
  refine ⟨?_, ?_, ?_, ?_, ?_, rfl, ?_, rfl, rfl, ?_⟩
  · intro v ctx name params h hmiss
    simp [checkV, h, hmiss]
  · intro rules ctx name params h hmiss
    simp [checkS, h, hmiss]
  · intro th tag v hmiss
    simp [ValidateStruct, hmiss]
  · intro rules ctx name params f p h hf hrun
    simp [checkS, h, hf, hrun]
  · intro p
    simp only [greaterThanRule, List.length_singleton]
    rfl
  · intro p
    simp only [lessThanRule, List.length_singleton]
    rfl
  · intro p rest hp
    cases p <;> simp_all [isEmailRule, isStr]

/-- Witness for C6: the unregistered-rule, unregistered-type,
rule-panic-propagation and non-string-`isEmail` clauses at concrete
inputs. -/
theorem claim_C6_witness :
    checkV { rules := none, typeHandlers := none } { err := none } "x" [] =
      Except.error "Rule x has not been registered to specified validator" ∧
    checkS emptyRules { err := none } "x" [] =
      Except.error "Rule x has not been registered" ∧
    ValidateStruct (fun _ => none) "T" (Value.int 0) =
      Except.error "Type \"T\" Hasn't been registered with RegisterType" ∧
    checkS initRules { err := none } "greaterThan" [] =
      Except.error "greaterThan: expected at least 2 parameters, got 0" ∧
    isEmailRule [Value.int 3] =
      Except.error "Parameter passed to email rule is not a string" :=
  ⟨claim_C6.1 _ _ "x" [] rfl rfl,
   claim_C6.2.1 emptyRules _ "x" [] rfl rfl,
   claim_C6.2.2.1 _ "T" (Value.int 0) rfl,
   claim_C6.2.2.2.1 initRules _ "greaterThan" [] greaterThanRule _ rfl rfl rfl,
   claim_C6.2.2.2.2.2.2.2.2.2 (Value.int 3) [] rfl⟩

/-- C7: `ValidateStruct` resolves the value's exact runtime type in the
type-handler registry, runs the resolved handler on the value and a fresh
context whose stored error is nil, and returns exactly that run's final
stored error (a handler panic propagates; an unregistered type is the fatal
path of C6). -/
theorem claim_C7 (th : String → Option HandlerFunc) (tag : String)
    (h : HandlerFunc) (v : Value) (hreg : th tag = some h) :
    (ValidationContext.err { err := none } = none) ∧
    (∀ ctxFinal : ValidationContext, h v { err := none } = Except.ok ctxFinal →
        ValidateStruct th tag v = Except.ok ctxFinal.err) ∧
    (∀ p : String, h v { err := none } = Except.error p →
        ValidateStruct th tag v = Except.error p) := by
  refine ⟨rfl, ?_, ?_⟩
  · intro ctxFinal hrun
    simp [ValidateStruct, hreg, hrun]
  · intro p hrun
    simp [ValidateStruct, hreg, hrun]

/-- Witness for C7: a registry binding type name `"T"` to a handler that
runs one failing `Must`; `ValidateStruct` returns that run's stored error. -/
theorem claim_C7_witness :
    ValidateStruct
        (registerTypeS (fun _ => none) "T"
          (fun _ ctx => Except.ok (ctx.Must (fun _ => false))))
        "T" (Value.int 0) = Except.ok (some "rule failed") :=
  (claim_C7
      (registerTypeS (fun _ => none) "T"
        (fun _ ctx => Except.ok (ctx.Must (fun _ => false))))
      "T" (fun _ ctx => Except.ok (ctx.Must (fun _ => false)))
      (Value.int 0) rfl).2.1 { err := some "rule failed" } rfl

/-- C8 counterexample: the claim says both setup paths register all four
built-ins, but (a) `New()` panics at its very first `RegisterRule` because
`&Validator{}` leaves the rule map nil (assignment to an entry of a nil map
is a Go runtime panic), so it never returns a registry at all, and (b)
`Init()` registers only `notEmpty`, `greaterThan` and `lessThan` — resolving
`"isEmail"` afterwards misses. -/
theorem claim_C8_cex :
    New = Except.error "assignment to entry in nil map" ∧
    initRules "isEmail" = none := ⟨rfl, rfl⟩

/-- C8 (amended): after `Init`, `notEmpty`, `greaterThan` and `lessThan`
are registered and resolvable but `isEmail` is not — `Check("isEmail", …)`
on an OK context hits the unregistered-rule fatal path; `New` as written
panics on the nil rule map before registering anything, although its
registration sequence, run against a validator whose rule map is
initialized, would install all four rules. -/
theorem claim_C8 :
    New = Except.error "assignment to entry in nil map" ∧
    (initRules "notEmpty").isSome = true ∧
    (initRules "greaterThan").isSome = true ∧
    (initRules "lessThan").isSome = true ∧
    initRules "isEmail" = none ∧
    (∀ (ctx : ValidationContext) (params : List Value), ctx.err = none →
        checkS initRules ctx "isEmail" params =
          Except.error "Rule isEmail has not been registered") ∧
    (∀ (m : String → Option RuleFunc) (th : GoMap String HandlerFunc),
        ∃ v' : Validator,
          newRegister { rules := some m, typeHandlers := th } = Except.ok v' ∧
          (v'.rules.lookup "notEmpty").isSome = true ∧
          (v'.rules.lookup "greaterThan").isSome = true ∧
          (v'.rules.lookup "lessThan").isSome = true ∧
          (v'.rules.lookup "isEmail").isSome = true) := by
  refine ⟨rfl, rfl, rfl, rfl, rfl, ?_, ?_⟩
  · intro ctx params h
    simp [checkS, h, initRules, registerRuleS, emptyRules]
  · intro m th
    refine ⟨_, rfl, ?_, ?_, ?_, ?_⟩ <;> rfl

/-- Witness for C8's `Check` clause: on the fresh OK context,
`Check("isEmail")` after `Init` panics with the unregistered-rule message. -/
theorem claim_C8_witness :
    checkS initRules { err := none } "isEmail" [Value.str "a@b.c"] =
      Except.error "Rule isEmail has not been registered" :=
  claim_C8.2.2.2.2.2.1 { err := none } [Value.str "a@b.c"] rfl

/-- C9: in every registry of either variant, resolving a key right after
registering it yields exactly the registered function, and re-registering
the same key silently replaces the entry, so all later resolutions return
the newest registration.  For the instantiable variant the registration must
actually complete, which requires the receiver's map to be initialized
(non-nil), and then the same holds. -/
theorem claim_C9 :
    (∀ (rules : String → Option RuleFunc) (name : String) (f g : RuleFunc),
        registerRuleS rules name f name = some f ∧
        registerRuleS (registerRuleS rules name f) name g name = some g) ∧
    (∀ (th : String → Option HandlerFunc) (name : String) (f g : HandlerFunc),
        registerTypeS th name f name = some f ∧
        registerTypeS (registerTypeS th name f) name g name = some g) ∧
    (∀ (v : Validator) (m : String → Option RuleFunc) (name : String)
        (f : RuleFunc), v.rules = some m →
        ∃ v' : Validator, registerRuleV v name f = Except.ok v' ∧
          v'.rules.lookup name = some f ∧
          ∀ g : RuleFunc, ∃ v'' : Validator,
            registerRuleV v' name g = Except.ok v'' ∧
            v''.rules.lookup name = some g) ∧
    (∀ (v : Validator) (m : String → Option HandlerFunc) (name : String)
        (f : HandlerFunc), v.typeHandlers = some m →
        ∃ v' : Validator, registerTypeV v name f = Except.ok v' ∧
          v'.typeHandlers.lookup name = some f ∧
          ∀ g : HandlerFunc, ∃ v'' : Validator,
            registerTypeV v' name g = Except.ok v'' ∧
            v''.typeHandlers.lookup name = some g) := by
  refine ⟨?_, ?_, ?_, ?_⟩
  · intro rules name f g
    constructor <;> simp [registerRuleS]
  · intro th name f g
    constructor <;> simp [registerTypeS]
  · intro v m name f hv
    refine ⟨{ v with rules := some (fun q => if q = name then some f else m q) },
      ?_, ?_, ?_⟩
    · simp [registerRuleV, GoMap.assign, hv]
    · simp [GoMap.lookup]
    · intro g
      refine ⟨{ v with
          rules := some (fun q => if q = name then some g
            else if q = name then some f else m q) }, ?_, ?_⟩
      · simp [registerRuleV, GoMap.assign]
      · simp [GoMap.lookup]
  · intro v m name f hv
    refine ⟨{ v with
      typeHandlers := some (fun q => if q = name then some f else m q) },
      ?_, ?_, ?_⟩
    · simp [registerTypeV, GoMap.assign, hv]
    · simp [GoMap.lookup]
    · intro g
      refine ⟨{ v with
          typeHandlers := some (fun q => if q = name then some g
            else if q = name then some f else m q) }, ?_, ?_⟩
      · simp [registerTypeV, GoMap.assign]
      · simp [GoMap.lookup]

/-- Witness for C9: register-then-resolve and silent replacement on the
singleton rule map, and on a concrete instantiable validator whose maps are
initialized. -/
theorem claim_C9_witness :
    (registerRuleS emptyRules "r" notEmptyInitRule "r" = some notEmptyInitRule ∧
     registerRuleS (registerRuleS emptyRules "r" notEmptyInitRule) "r"
        notEmptyNewRule "r" = some notEmptyNewRule) ∧
    (∃ v' : Validator,
        registerRuleV { rules := GoMap.empty, typeHandlers := GoMap.empty } "r"
          notEmptyNewRule = Except.ok v' ∧
        v'.rules.lookup "r" = some notEmptyNewRule ∧
        ∀ g : RuleFunc, ∃ v'' : Validator,
          registerRuleV v' "r" g = Except.ok v'' ∧
          v''.rules.lookup "r" = some g) :=
  ⟨claim_C9.1 emptyRules "r" notEmptyInitRule notEmptyNewRule,
   claim_C9.2.2.1 { rules := GoMap.empty, typeHandlers := GoMap.empty }
     (fun _ => none) "r" notEmptyNewRule rfl⟩

/-- C10: the comparison rules compare float64 widenings, so exact integer
order is not preserved above `2^53`: for `a = 2^53` and `b = 2^53 + 1`
(both in int64 range, `a < b`) the two operands widen to the same double,
hence `greaterThan(a, b)` returns a validation error even though `b > a`
exactly, and `lessThan(b, a)` returns a validation error even though
`a < b` exactly. -/
theorem claim_C10 :
    ∃ a b : Int,
      -(2 ^ 63) ≤ a ∧ a < 2 ^ 63 ∧ -(2 ^ 63) ≤ b ∧ b < 2 ^ 63 ∧ a < b ∧
      float64OfInt a = float64OfInt b ∧
      (∃ msg : String,
          greaterThanRule [Value.int a, Value.int b] = Except.ok (some msg)) ∧
      (∃ msg : String,
          lessThanRule [Value.int b, Value.int a] = Except.ok (some msg)) := by
  refine ⟨2 ^ 53, 2 ^ 53 + 1, by norm_num, by norm_num, by norm_num, by norm_num,
    by norm_num, by decide,
    ⟨gtFailMsg 2 ((2 ^ 53 : Int) : Rat) ((2 ^ 53 : Int) : Rat), ?_⟩,
    ⟨ltFailMsg 2 ((2 ^ 53 : Int) : Rat) ((2 ^ 53 : Int) : Rat), ?_⟩⟩ <;> rfl
